import Mathlib

/-!
Verification of the per-user dispatch and streaming-response core of the
quizbeat/ezekiel-assistant-bot Telegram bot.

The development shallowly embeds the relevant parts of the Python source:

* `Relay`   — the streaming relay loop of `Bot.message_handle`'s inner
  `message_handle_fn` (`bot/bot.py`, the `async for gen_item in gen` loop):
  per-item truncation to `MESSAGE_LENGTH_LIMIT` characters, throttled pushes
  to the message-edit sink, and the final answer recorded into the dialog.
* `OpenAI`  — `Assistant._send_message` / `Assistant.send_message` and
  `Assistant._compose_completion_messages` from `bot/openai_utils.py`:
  the context-trim retry loop, the streamed `AssistantResponse` sequence and
  the completion-message composition.
* `DB`      — the slice of `bot/firestore.py` used by the handlers:
  per-user current dialog id, dialogs with ordered message lists, chat mode,
  model, additive used-token counters and the remaining-token counter.
* `Switch`  — `Bot.switch_context_if_needed` (`bot/bot.py`).
* `Slot`    — the dispatch block of `Bot.message_handle`
  (`async with self.user_semaphores[user_id]: ...`) together with the
  exception structure of `message_handle_fn`.
* `Sched`   — a small cooperative-scheduling model of two concurrent
  dispatches justifying the mutual-exclusion / busy-rejection behaviour.

Texts manipulated character-by-character (truncation) are modelled as
`List Char`; texts that are only carried around are modelled as `String`.
-/

namespace Relay

/-- Embeds `MESSAGE_LENGTH_LIMIT` from `bot/telegram_utils.py`. -/
def MESSAGE_LENGTH_LIMIT : Nat := 4096

/-- One item produced by the generator consumed in `message_handle_fn`:
`status, answer, (n_input_tokens, n_output_tokens), n_first_dialog_messages_removed = gen_item`.
Only the status (`"finished"` or not) and the answer text drive the relay
loop, so the other components are omitted here.  `finished` is
`status == "finished"`. -/
structure GenItem where
  finished : Bool
  answer : List Char
deriving DecidableEq, Repr

/-- The body of the `async for gen_item in gen` loop of `message_handle_fn`
(`bot/bot.py`): each item's answer is truncated to `MESSAGE_LENGTH_LIMIT`,
an item is skipped (`continue`) when
`abs(len(answer) - len(previous_answer)) < 100 and status != "finished"`,
and otherwise the truncated answer is pushed to `edit_message_text` and
becomes `previous_answer`.  Returns the list of pushed texts together with
the value of the `answer` variable after the loop (the Python variable is
reassigned on every iteration, so it ends as the last item's truncated
text). -/
def relayGo (prev ans : List Char) : List GenItem → List (List Char) × List Char
  | [] => ([], ans)
  | item :: rest =>
    let answer := item.answer.take MESSAGE_LENGTH_LIMIT
    if ((answer.length : Int) - (prev.length : Int)).natAbs < 100 ∧ item.finished = false then
      relayGo prev answer rest
    else
      let r := relayGo answer answer rest
      (answer :: r.1, r.2)

/-- The whole relay loop as run by `message_handle_fn`: `previous_answer`
starts as `""` and the `answer` variable starts as `""` (line
`answer = ""` before the loop). -/
def relayRun (items : List GenItem) : List (List Char) × List Char :=
  relayGo [] [] items

/-- Length of an item's answer after truncation to the message length limit. -/
def truncLen (item : GenItem) : Nat :=
  min MESSAGE_LENGTH_LIMIT item.answer.length

/-- The relay loop as the specification words it: a partial answer is pushed
only when its text has grown by at least 100 characters since the last pushed
text, or the element is the final one.  Written from the spec sentence, to be
compared with `relayGo` (which is written from the source and skips on
`abs(len(answer) - len(previous_answer)) < 100`). -/
def relaySpecGo (prev ans : List Char) : List GenItem → List (List Char) × List Char
  | [] => ([], ans)
  | item :: rest =>
    let answer := item.answer.take MESSAGE_LENGTH_LIMIT
    if answer.length ≥ prev.length + 100 ∨ item.finished = true then
      let r := relaySpecGo answer answer rest
      (answer :: r.1, r.2)
    else
      relaySpecGo prev answer rest

/-- Spec-worded relay loop from the initial empty state. -/
def relaySpecRun (items : List GenItem) : List (List Char) × List Char :=
  relaySpecGo [] [] items

/-- The synthetic stream of P7: non-final answers of lengths 10, 50, 90, 150
and 260, followed by a final element (its text staying at length 260). -/
def p7Stream : List GenItem :=
  [⟨false, List.replicate 10 'a'⟩,
   ⟨false, List.replicate 50 'a'⟩,
   ⟨false, List.replicate 90 'a'⟩,
   ⟨false, List.replicate 150 'a'⟩,
   ⟨false, List.replicate 260 'a'⟩,
   ⟨true, List.replicate 260 'a'⟩]

end Relay

namespace OpenAI

/-- Embeds `DialogMessageImage` from `bot/dialog.py`. -/
structure DialogMessageImage where
  base64 : String
deriving DecidableEq, Repr

/-- Embeds `DialogMessageContent` from `bot/dialog.py`. -/
structure DialogMessageContent where
  text : String
  images : List DialogMessageImage
deriving DecidableEq, Repr

/-- Embeds `DialogMessage` from `bot/dialog.py` (the `message_id` and `date` fields
are not read by `Assistant`, so they are omitted here). -/
structure DialogMessage where
  user : DialogMessageContent
  bot : DialogMessageContent
deriving DecidableEq, Repr

/-- One content part of a completion entry: either a
`{"type": "text", "text": ...}` part or a
`{"type": "image_url", "image_url": {"url": ..., "detail": ...}}` part. -/
inductive ContentPart
  | text (s : String)
  | imageUrl (url : String) (detail : String)
deriving DecidableEq, Repr

/-- The `content` field of a completion entry: either a plain string
(system and assistant entries) or a list of parts (user entries). -/
inductive EntryContent
  | str (s : String)
  | parts (l : List ContentPart)
deriving DecidableEq, Repr

/-- One role-tagged completion entry, `Assistant._compose_completion_message`. -/
structure CompletionEntry where
  role : String
  content : EntryContent
deriving DecidableEq, Repr

/-- Embeds `Assistant._compose_completion_user_message_image`. -/
def composeUserMessageImage (image : DialogMessageImage) : ContentPart :=
  .imageUrl ("data:image/jpeg;base64," ++ image.base64) "high"

/-- The user entry for one history message: a text part followed by one
image part per attached image. -/
def userEntryContent (content : DialogMessageContent) : List ContentPart :=
  .text content.text :: content.images.map composeUserMessageImage

/-- Embeds `Assistant._compose_completion_messages` (`bot/openai_utils.py`):
`messages` starts with the system entry, the `for message in dialog_messages`
loop appends a user entry and an assistant entry per history message, and the
new user entry is appended last.  `systemMessage` stands for
`self.chat_modes.get_system_message(chat_mode, language)`, the active chat
mode's configured prompt. -/
def composeCompletionMessages
    (systemMessage : String)
    (newMessageText : String)
    (newMessageImages : List DialogMessageImage)
    (dialogMessages : List DialogMessage) : List CompletionEntry :=
  let messages : List CompletionEntry := [⟨"system", .str systemMessage⟩]
  let messages := dialogMessages.foldl
    (fun acc m =>
      acc ++ [⟨"user", .parts (userEntryContent m.user)⟩,
              ⟨"assistant", .str m.bot.text⟩])
    messages
  messages ++
    [⟨"user", .parts (.text newMessageText ::
        newMessageImages.map composeUserMessageImage)⟩]

/-- One chunk of the provider stream: `chunk.choices[0].delta.content` when
`chunk.choices` is non-empty, and `chunk.usage` giving
`(prompt_tokens, completion_tokens)` when present. -/
structure Chunk where
  content : Option String
  usage : Option (Nat × Nat)
deriving DecidableEq, Repr

/-- Embeds `AssistantResponse` from `bot/openai_utils.py`. -/
structure AssistantResponse where
  message : String
  n_input_tokens : Option Nat := none
  n_output_tokens : Option Nat := none
  n_messages_removed : Nat := 0
  is_finished : Bool := false
deriving DecidableEq, Repr

/-- What one run of the `_send_message` generator does: the sequence of
yielded responses, whether the generator ended by raising, the number of
`client.chat.completions.create` calls made, and the number of history
messages dropped by the trim-and-retry loop. -/
structure SendRun where
  yielded : List AssistantResponse
  raised : Bool
  attempts : Nat
  dropped : Nat
deriving DecidableEq, Repr

/-- The `async for chunk in stream` loop of `_send_message`: accumulates
`response_message`, records token counts from a usage-bearing chunk, and
yields one non-final `AssistantResponse` per chunk carrying
`n_messages_removed = dialog_messages_len_before - len(dialog_messages)`
(constant during one attempt).  Returns the yields together with the final
`response_message` and token-count variables. -/
def runChunks (nRemoved : Nat) (msg : String) (nIn nOut : Option Nat) :
    List Chunk → List AssistantResponse × String × Option Nat × Option Nat
  | [] => ([], msg, nIn, nOut)
  | c :: rest =>
    let msg' := msg ++ c.content.getD ""
    let toks : Option Nat × Option Nat :=
      match c.usage with
      | some u => (some u.1, some u.2)
      | none => (nIn, nOut)
    let r := runChunks nRemoved msg' toks.1 toks.2 rest
    (⟨msg', none, none, nRemoved, false⟩ :: r.1, r.2)

/-- One successful `create` attempt of `_send_message`: stream the chunks,
then (once the `while` loop exits) yield the final response with
`is_finished=True`.  When the stream produced no chunk at all, the local
variable `n_messages_removed` was never assigned, so the final `yield`
raises (`NameError`) instead of producing a final element. -/
def attemptSuccess (lenBefore dmLen : Nat) (chunks : List Chunk) : SendRun :=
  let nRemoved := lenBefore - dmLen
  let r := runChunks nRemoved "" none none chunks
  match chunks with
  | [] => ⟨r.1, true, 1, 0⟩
  | _ :: _ =>
    ⟨r.1 ++ [⟨r.2.1.trim, r.2.2.1, r.2.2.2, nRemoved, true⟩], false, 1, 0⟩

/-- The `while response_message is None` retry loop of `_send_message`
(from line `dialog_messages_len_before = len(dialog_messages)` on).
`attempt` stands for `client.chat.completions.create` applied to the
entries composed from the current history: it either raises
`openai.BadRequestError` (`.error`, the context-overflow signal) or returns
the chunk stream.  On a failure with a non-empty history the first history
message is dropped and the loop retries; with an empty history the error
is re-raised. -/
def sendMessageAux (attempt : List DialogMessage → Except Unit (List Chunk))
    (lenBefore : Nat) : List DialogMessage → SendRun
  | [] =>
    match attempt [] with
    | .error _ => ⟨[], true, 1, 0⟩
    | .ok chunks => attemptSuccess lenBefore 0 chunks
  | d :: rest =>
    match attempt (d :: rest) with
    | .error _ =>
      let r := sendMessageAux attempt lenBefore rest
      ⟨r.yielded, r.raised, r.attempts + 1, r.dropped + 1⟩
    | .ok chunks => attemptSuccess lenBefore (rest.length + 1) chunks

/-- Embeds `Assistant._send_message` run on a history:
`dialog_messages_len_before = len(dialog_messages)`. -/
def sendMessageRun (attempt : List DialogMessage → Except Unit (List Chunk))
    (dialogMessages : List DialogMessage) : SendRun :=
  sendMessageAux attempt dialogMessages.length dialogMessages

/-- The public `Assistant.send_message`: forwards a yielded response iff
`self.should_stream or response.is_finished`. -/
def sendMessagePublic (shouldStream : Bool) (run : SendRun) :
    List AssistantResponse :=
  run.yielded.filter (fun r => shouldStream || r.is_finished)

end OpenAI

namespace DB

/-- One element of a dialog's `messages` array as written by
`message_handle_fn` (`bot/bot.py`): the dict
`{"user": ..., "bot": ..., "message_id": ..., "date": ...}`.  The `date`
field is never read in the dispatch core and is omitted.  The bot text is
kept as `List Char` because the relay loop truncates it character-wise. -/
structure DialogEntry where
  user : String
  bot : List Char
  message_id : Option Int
deriving DecidableEq, Repr

/-- One dialog document (`bot/firestore.py`): chat mode and model recorded
at creation plus the ordered message list (`start_time` is never read in
scope and is omitted). -/
structure Dialog where
  chat_mode : String
  model : String
  messages : List DialogEntry
deriving DecidableEq, Repr

/-- The per-user Firestore state used by the dispatch core. -/
structure UserState where
  current_dialog_id : Option String
  current_chat_mode : String
  current_model : String
  n_used_tokens : List (String × (Nat × Nat))
  n_remaining_tokens : Option Int
  last_interaction : Nat
  dialogs : List (String × Dialog)
deriving DecidableEq, Repr

/-- Point lookup in an association list (a Firestore document read). -/
def assocGet (l : List (String × α)) (k : String) : Option α :=
  match l with
  | [] => none
  | (k', v) :: rest => if k' = k then some v else assocGet rest k

/-- Embeds `document(k).set(v)`: replace the entry when present, append otherwise. -/
def assocSet (l : List (String × α)) (k : String) (v : α) : List (String × α) :=
  match l with
  | [] => [(k, v)]
  | (k', v') :: rest =>
    if k' = k then (k', v) :: rest else (k', v') :: assocSet rest k v

/-- Embeds `document(k).update(...)`: modify the entry when present.  (Firestore's
`update` fails on a missing document; the claims only use it on documents
known to exist, so the missing case is modelled as a no-op.) -/
def assocUpdate (l : List (String × α)) (k : String) (f : α → α) :
    List (String × α) :=
  match l with
  | [] => []
  | (k', v) :: rest =>
    if k' = k then (k', f v) :: rest else (k', v) :: assocUpdate rest k f

/-- Resolve an optional dialog id argument against the current dialog id,
as `get_dialog_messages` / `set_dialog_messages` do with `dialog_id=None`. -/
def currentOr (st : UserState) (dialogId : Option String) : Option String :=
  match dialogId with
  | some d => some d
  | none => st.current_dialog_id

/-- Embeds `Firestore.get_dialog_messages`. -/
def getDialogMessages (st : UserState) (dialogId : Option String) :
    List DialogEntry :=
  match currentOr st dialogId with
  | some d => ((assocGet st.dialogs d).map Dialog.messages).getD []
  | none => []

/-- Embeds `Firestore.set_dialog_messages`. -/
def setDialogMessages (st : UserState) (messages : List DialogEntry)
    (dialogId : Option String) : UserState :=
  match currentOr st dialogId with
  | some d =>
    let dialogs := assocUpdate st.dialogs d
      (fun dlg => { dlg with messages := messages })
    { st with dialogs := dialogs }
  | none => st

/-- Index of the first message whose `message_id` equals the given platform
message id (`message.get(DIALOG_MESSAGE_ID_KEY) == message_id`). -/
def findMsgIdx (messages : List DialogEntry) (messageId : Int) : Option Nat :=
  messages.findIdx? (fun m => m.message_id = some messageId)

/-- Embeds `Firestore.get_dialog_id`: scan the user's dialogs in collection order
and return the first (dialog id, message index) containing the platform
message id, or `(None, None)`. -/
def getDialogId (dialogs : List (String × Dialog)) (messageId : Int) :
    Option String × Option Nat :=
  match dialogs with
  | [] => (none, none)
  | (i, d) :: rest =>
    match findMsgIdx d.messages messageId with
    | some k => (some i, some k)
    | none => getDialogId rest messageId

/-- Embeds `Firestore.start_new_dialog`: create a dialog document carrying the
user's current chat mode and model with an empty message list, and make it
current.  `freshId` stands for the generated `uuid.uuid4()` string. -/
def startNewDialog (st : UserState) (freshId : String) : UserState :=
  let dlg : Dialog :=
    { chat_mode := st.current_chat_mode
      model := st.current_model
      messages := [] }
  { st with dialogs := assocSet st.dialogs freshId dlg
            current_dialog_id := some freshId }

/-- Embeds `Firestore.get_chat_mode` (of a dialog document). -/
def getChatMode (st : UserState) (dialogId : String) : String :=
  ((assocGet st.dialogs dialogId).map Dialog.chat_mode).getD ""

/-- Embeds `Firestore.set_current_chat_mode`. -/
def setCurrentChatMode (st : UserState) (chatMode : String) : UserState :=
  { st with current_chat_mode := chatMode }

/-- Embeds `Firestore.set_last_interaction` (timestamps as abstract `Nat`). -/
def setLastInteraction (st : UserState) (now : Nat) : UserState :=
  { st with last_interaction := now }

/-- Embeds `USER_N_REMAINING_TOKENS_INITIAL_VALUE` from `bot/firestore.py`. -/
def N_REMAINING_TOKENS_INITIAL : Int := 50000

/-- Embeds `Firestore.get_n_remaining_tokens`: when the stored attribute is `None`
it is first initialised to the initial value; the stored value (a plain
signed integer, possibly negative) is returned. -/
def getNRemainingTokens (st : UserState) : Int × UserState :=
  match st.n_remaining_tokens with
  | none => (N_REMAINING_TOKENS_INITIAL,
             { st with n_remaining_tokens := some N_REMAINING_TOKENS_INITIAL })
  | some v => (v, st)

/-- Embeds `Firestore.set_n_remaining_tokens`: stores the value as given, with no
lower bound. -/
def setNRemainingTokens (st : UserState) (v : Int) : UserState :=
  { st with n_remaining_tokens := some v }

/-- Embeds `Firestore.set_n_used_tokens`: additive per-(user, model) counters —
add to the existing entry, or create one with the given counts. -/
def setNUsedTokens (st : UserState) (model : String) (nIn nOut : Nat) :
    UserState :=
  match assocGet st.n_used_tokens model with
  | some _ =>
    let used := assocUpdate st.n_used_tokens model
      (fun p => (p.1 + nIn, p.2 + nOut))
    { st with n_used_tokens := used }
  | none =>
    { st with n_used_tokens := st.n_used_tokens ++ [(model, (nIn, nOut))] }

/-- Read a model's used-token counters, `(0, 0)` when absent. -/
def usedTokensOf (st : UserState) (model : String) : Nat × Nat :=
  (assocGet st.n_used_tokens model).getD (0, 0)

end DB

namespace Switch

/-- The reply-to message of an inbound message: its sender id (when known)
and its platform message id. -/
structure ReplyTo where
  sender : Option Nat
  message_id : Int
deriving DecidableEq, Repr

/-- The slice of an inbound Telegram message read by
`switch_context_if_needed`. -/
structure IncomingMsg where
  sender : Option Nat
  reply_to : Option ReplyTo
deriving DecidableEq, Repr

/-- Embeds `ChatContextSwitch` from `bot/bot.py`. -/
inductive ChatContextSwitch
  | SWITCHED
  | NOT_NEEDED
  | CANT_SWITCH
deriving DecidableEq, Repr

/-- Result of `switch_context_if_needed`: the returned enum value, the
database state afterwards, and whether the user was sent the
`cant_return_to_dialog` notification. -/
structure SwitchResult where
  outcome : ChatContextSwitch
  state : DB.UserState
  notified : Bool
deriving DecidableEq, Repr

/-- Embeds `Bot.switch_context_if_needed` (`bot/bot.py`).  `botId` is
`context.bot.id`, `freshId` the uuid a context fork would allocate, `now`
the current time for `update_last_interaction`. -/
def switchContextIfNeeded (st : DB.UserState) (msg : IncomingMsg)
    (botId : Nat) (freshId : String) (now : Nat) : SwitchResult :=
  match msg.sender with
  | none => ⟨.CANT_SWITCH, st, false⟩
  | some _ =>
    match msg.reply_to with
    | none => ⟨.NOT_NEEDED, st, false⟩
    | some reply =>
      match reply.sender with
      | none => ⟨.CANT_SWITCH, st, false⟩
      | some replySender =>
        if replySender ≠ botId then ⟨.NOT_NEEDED, st, false⟩
        else
          let currentDialogId := st.current_dialog_id
          match DB.getDialogId st.dialogs reply.message_id with
          | (some targetDialogId, some targetMessageI) =>
            let st := DB.setLastInteraction st now
            let targetDialogMessages :=
              DB.getDialogMessages st (some targetDialogId)
            let repliedToCurrentDialog := some targetDialogId = currentDialogId
            let repliedToLastMessage :=
              (targetMessageI : Int) = (targetDialogMessages.length : Int) - 1
            if repliedToCurrentDialog ∧ repliedToLastMessage then
              ⟨.NOT_NEEDED, st, false⟩
            else
              let targetChatMode := DB.getChatMode st targetDialogId
              let st := DB.setCurrentChatMode st targetChatMode
              let st := DB.startNewDialog st freshId
              let st := DB.setDialogMessages st
                (targetDialogMessages.take (targetMessageI + 1)) (some freshId)
              ⟨.SWITCHED, st, false⟩
          | _ => ⟨.CANT_SWITCH, st, true⟩

end Switch

namespace Slot

/-- The process-local per-user dispatch slot: whether
`self.user_semaphores[user_id]` is held and whether
`user_id in self.user_tasks`. -/
structure SlotState where
  locked : Bool
  hasTask : Bool
deriving DecidableEq, Repr

/-- How the awaited handler task ends: normal return, cooperative
cancellation (`asyncio.CancelledError`), or any other escaping exception. -/
inductive TaskExit
  | normal
  | cancelled
  | failed
deriving DecidableEq, Repr

/-- Embeds `Bot.is_previous_message_not_answered_yet`: reports Busy iff
`self.user_semaphores[user_id].locked()`. -/
def busyCheck (s : SlotState) : Bool :=
  s.locked

/-- The `try/except asyncio.CancelledError/else/finally` around
`await task`: cancellation is caught and answered with the
`dialog_cancelled` resource (not re-raised); any other exception has no
matching clause and escapes.  Returns (escaping exception, reply sent by
the dispatcher).  Replies are modelled by their `BotResources` keys. -/
def runTry (exit : TaskExit) : Option TaskExit × Option String :=
  match exit with
  | .normal => (none, none)
  | .cancelled => (none, some "dialog_cancelled")
  | .failed => (some .failed, none)

/-- The dispatch block of `Bot.message_handle`
(`async with self.user_semaphores[user_id]: ...`): acquire the semaphore,
record the spawned task handle, await it (ending with `exit`), run the
`except`/`finally` clauses (the `finally` removes the task handle), and
release the semaphore on every path out of the `async with`. -/
def dispatchBlock (s : SlotState) (exit : TaskExit) :
    SlotState × Option TaskExit × Option String :=
  let s := { s with locked := true }
  let s := { s with hasTask := true }
  let r := runTry exit
  let s := { s with hasTask := false }
  ({ s with locked := false }, r.1, r.2)

end Slot

namespace Handler

/-- How the generation part of `message_handle_fn` ends: a completed answer
with its usage, a `CancelledError` observed after the token-count variables
(initialised to `0, 0` before the `try`) hold the given values, or any
other exception. -/
inductive FnOutcome
  | completed (answer : List Char) (nIn nOut : Nat)
  | cancelledAfter (nIn nOut : Nat)
  | failed
deriving DecidableEq, Repr

/-- Embeds `message_handle_fn` (`bot/bot.py`), from the `try:` around the
generation to the end of its exception handlers.

* On completion: append the new dialog message (user text, relayed bot
  answer, placeholder message id) to the current dialog, add the usage to
  the per-model used-token counters, and store
  `current_n_remaining_tokens - (n_input_tokens + n_output_tokens)` as the
  remaining-token counter (`captured` is the value read by
  `message_handle` before dispatching).
* On `asyncio.CancelledError`: commit the accumulated token counters and
  re-raise.
* On any other exception: reply with the `completion_error` resource and
  return normally.

Replies are modelled by their `BotResources` keys. -/
def messageHandleFn (st : DB.UserState) (captured : Int) (msgText : String)
    (msgId : Option Int) (outcome : FnOutcome) :
    DB.UserState × Slot.TaskExit × Option String :=
  let currentModel := st.current_model
  match outcome with
  | .completed answer nIn nOut =>
    let newMessage : DB.DialogEntry := ⟨msgText, answer, msgId⟩
    let st1 := DB.setDialogMessages st
      (DB.getDialogMessages st none ++ [newMessage]) none
    let st2 := DB.setNUsedTokens st1 currentModel nIn nOut
    let st3 := DB.setNRemainingTokens st2 (captured - (nIn + nOut))
    (st3, .normal, none)
  | .cancelledAfter nIn nOut =>
    (DB.setNUsedTokens st currentModel nIn nOut, .cancelled, none)
  | .failed => (st, .normal, some "completion_error")

/-- The token-limit gate of `Bot.message_handle`
(`current_n_remaining_tokens = self.db.get_n_remaining_tokens(user_id)`,
rejecting with the `tokens_limit_reached` resource when `<= 0`):
returns (admitted?, captured counter value, state after the read, reply). -/
def admitTextMessage (st : DB.UserState) :
    Bool × Int × DB.UserState × Option String :=
  let r := DB.getNRemainingTokens st
  if r.1 ≤ 0 then (false, r.1, r.2, some "tokens_limit_reached")
  else (true, r.1, r.2, none)

/-- One text message processed end to end on the admission-relevant path:
the token gate, then (when admitted) `message_handle_fn` completing with
the given usage.  Returns (admitted?, final state). -/
def processTextMessage (st : DB.UserState) (msgText : String)
    (msgId : Option Int) (answer : List Char) (nIn nOut : Nat) :
    Bool × DB.UserState :=
  let a := admitTextMessage st
  if a.1 then
    (true, (messageHandleFn a.2.2.1 a.2.1 msgText msgId
              (.completed answer nIn nOut)).1)
  else
    (false, a.2.2.1)

end Handler

namespace Sched

/-- Where one dispatch attempt for a user stands.  `ready`: about to run
its entry section — in `asyncio`'s run-to-suspension scheduling the whole
stretch from the `semaphore.locked()` check in
`is_previous_message_not_answered_yet` through `async with` acquisition,
`create_task` and registration in `user_tasks` executes without an
intervening suspension point (every call between them on the dispatch path
is synchronous), so it is one atomic step.  `running`: the handler task is
in flight and the dispatcher is suspended at `await task`.  `doneBusy`:
rejected with the Busy reply.  `doneRan`: handler finished and the slot was
released. -/
inductive Phase
  | ready
  | running
  | doneBusy
  | doneRan
deriving DecidableEq, Repr

/-- Two concurrent dispatch attempts for the same user sharing that user's
semaphore. -/
structure Sys where
  slot : Bool
  t0 : Phase
  t1 : Phase
deriving DecidableEq, Repr

/-- One scheduled step of a dispatch attempt: from `ready`, observe the
semaphore — held means Busy, free means acquire-and-spawn; from `running`,
the handler completes and the `finally`/`async with` releases the slot.
Finished attempts take no further steps. -/
def stepTask (slot : Bool) : Phase → Bool × Phase
  | .ready => if slot then (slot, .doneBusy) else (true, .running)
  | .running => (false, .doneRan)
  | p => (slot, p)

/-- Run one step of the chosen task (`false` = first, `true` = second). -/
def step (s : Sys) (i : Bool) : Sys :=
  if i then
    let r := stepTask s.slot s.t1
    { s with slot := r.1, t1 := r.2 }
  else
    let r := stepTask s.slot s.t0
    { s with slot := r.1, t0 := r.2 }

/-- Execute a schedule (an arbitrary interleaving). -/
def exec (s : Sys) (sched : List Bool) : Sys :=
  sched.foldl step s

/-- Both attempts about to run, semaphore free. -/
def init : Sys :=
  ⟨false, .ready, .ready⟩

/-- The safety invariant of the per-user slot: the semaphore is held
exactly when one of the attempts is running, the two handlers never run
concurrently, and a Busy rejection can only have been issued while the
other attempt was (or had already finished) running. -/
def inv (s : Sys) : Bool :=
  (s.slot = (s.t0 = .running || s.t1 = .running)) &&
  !(s.t0 = .running && s.t1 = .running) &&
  (s.t0 = .doneBusy → (s.t1 = .running || s.t1 = .doneRan)) &&
  (s.t1 = .doneBusy → (s.t0 = .running || s.t0 = .doneRan))

/-- Two users' dispatch systems side by side (each user has their own
semaphore and tasks). -/
structure Sys2 where
  a : Sys
  b : Sys
deriving DecidableEq, Repr

/-- A scheduling label for the two-user system: which user's subsystem
steps, and which of that user's attempts. -/
def step2 (s : Sys2) (l : Bool × Bool) : Sys2 :=
  if l.1 then { s with b := step s.b l.2 }
  else { s with a := step s.a l.2 }

/-- Execute an interleaved two-user schedule. -/
def exec2 (s : Sys2) (sched : List (Bool × Bool)) : Sys2 :=
  sched.foldl step2 s

/-- The steps of the first user extracted from an interleaved schedule. -/
def projA (sched : List (Bool × Bool)) : List Bool :=
  (sched.filter (fun l => l.1 = false)).map Prod.snd

end Sched

namespace Fixture

/-- A stored dialog with two turns, for concrete witnesses. -/
def dlgA : DB.Dialog :=
  ⟨"assistant", "gpt-4o", [⟨"hi", ['H'], some 11⟩, ⟨"more", ['M'], some 12⟩]⟩

/-- A registered user whose current dialog is `dlgA`. -/
def stA : DB.UserState :=
  ⟨some "dlgA", "assistant", "gpt-4o", [], some 100, 0, [("dlgA", dlgA)]⟩

end Fixture

namespace Relay

/-- Non-decreasing check for a list of lengths, starting from `p`. -/
def monoFrom (p : Nat) : List Nat → Bool
  | [] => true
  | a :: rest => p ≤ a && monoFrom a rest

theorem length_take_truncLen (item : GenItem) :
    (item.answer.take MESSAGE_LENGTH_LIMIT).length = truncLen item := by
  simp [truncLen, List.length_take]

theorem monoFrom_of_le {a b : Nat} {l : List Nat} (h : a ≤ b)
    (hc : monoFrom b l = true) : monoFrom a l = true := by
  cases l with
  | nil => rfl
  | cons c rest =>
    simp only [monoFrom, Bool.and_eq_true, decide_eq_true_eq] at hc ⊢
    exact ⟨le_trans h hc.1, hc.2⟩

/-- On a stream whose (truncated) answer lengths never shrink — which is how
the generator produces them, by accretion — the source relay loop and the
spec-worded relay loop coincide. -/
theorem relayGo_eq_specGo (items : List GenItem) : ∀ prev ans : List Char,
    monoFrom prev.length (items.map truncLen) = true →
    relayGo prev ans items = relaySpecGo prev ans items := by
  induction items with
  | nil => intro prev ans _; rfl
  | cons it rest ih =>
    intro prev ans hchain
    rw [List.map_cons] at hchain
    simp only [monoFrom, Bool.and_eq_true, decide_eq_true_eq] at hchain
    obtain ⟨hle, hrest⟩ := hchain
    · have hlen := length_take_truncLen it
      by_cases hcond :
          (((it.answer.take MESSAGE_LENGTH_LIMIT).length : Int) -
            (prev.length : Int)).natAbs < 100 ∧ it.finished = false
      · have hnspec : ¬((it.answer.take MESSAGE_LENGTH_LIMIT).length ≥
            prev.length + 100 ∨ it.finished = true) := by
          rw [hlen] at hcond ⊢
          rcases hcond with ⟨habs, hf⟩
          rw [hf]
          simp only [Bool.false_eq_true, or_false]
          omega
        simp only [relayGo, relaySpecGo, if_pos hcond, if_neg hnspec]
        exact ih prev _ (monoFrom_of_le hle hrest)
      · have hspec : (it.answer.take MESSAGE_LENGTH_LIMIT).length ≥
            prev.length + 100 ∨ it.finished = true := by
          rw [hlen] at hcond ⊢
          by_contra hn
          push_neg at hn
          rcases hn with ⟨h1, h2⟩
          have hf : it.finished = false := by
            cases hf : it.finished
            · rfl
            · exact absurd hf h2
          exact hcond ⟨by omega, hf⟩
        simp only [relayGo, relaySpecGo, if_neg hcond, if_pos hspec]
        have := ih (it.answer.take MESSAGE_LENGTH_LIMIT)
          (it.answer.take MESSAGE_LENGTH_LIMIT) (by rw [hlen]; exact hrest)
        rw [this]

/-- Every text the relay loop pushes, and the final value of its `answer`
variable, is at most `MESSAGE_LENGTH_LIMIT` characters long. -/
theorem relayGo_bounded (items : List GenItem) : ∀ prev ans : List Char,
    ans.length ≤ MESSAGE_LENGTH_LIMIT →
    ((∀ t ∈ (relayGo prev ans items).1, t.length ≤ MESSAGE_LENGTH_LIMIT) ∧
     (relayGo prev ans items).2.length ≤ MESSAGE_LENGTH_LIMIT) := by
  induction items with
  | nil =>
    intro prev ans h
    exact ⟨by intro t ht; simp [relayGo] at ht, h⟩
  | cons it rest ih =>
    intro prev ans h
    have htake : (it.answer.take MESSAGE_LENGTH_LIMIT).length ≤
        MESSAGE_LENGTH_LIMIT := List.length_take_le _ _
    simp only [relayGo]
    by_cases hcond :
        (((it.answer.take MESSAGE_LENGTH_LIMIT).length : Int) -
          (prev.length : Int)).natAbs < 100 ∧ it.finished = false
    · simp only [if_pos hcond]
      exact ih prev _ htake
    · simp only [if_neg hcond]
      obtain ⟨h1, h2⟩ := ih (it.answer.take MESSAGE_LENGTH_LIMIT)
        (it.answer.take MESSAGE_LENGTH_LIMIT) htake
      refine ⟨?_, h2⟩
      intro t ht
      rcases List.mem_cons.mp ht with rfl | hmem
      · exact htake
      · exact h1 t hmem

end Relay

set_option maxRecDepth 8000 in
/-- C6 (counterexample): on the P7 stream (non-final answers of lengths 10,
50, 90, 150, 260, then a final element) the relay loop of
`message_handle_fn` pushes three times, not two: the 260-length NON-final
element is also pushed, because after the push at length 150 its text has
grown by 110 ≥ 100 characters.  So the relay is not invoked "only for the
150-length element and the final element". -/
theorem claim_C6_counterexample :
    (Relay.relayRun Relay.p7Stream).1.length = 3 ∧
    (Relay.relayRun Relay.p7Stream).1[1]? = some (List.replicate 260 'a') ∧
    Relay.p7Stream[4]? = some ⟨false, List.replicate 260 'a'⟩ := by
  refine ⟨?_, ?_, ?_⟩ <;> decide

set_option maxRecDepth 8000 in
/-- C6 (amended): in the streaming relay loop a partial answer is pushed to
the outward message-edit sink exactly when its text has grown by at least
100 characters since the last pushed text or the element is the final one
(for the accretive streams the generator produces, whose truncated lengths
never shrink); in particular, on the synthetic stream with non-final texts
of lengths 10, 50, 90, 150, 260 followed by a final element, the relay is
invoked for the 150-length element, the 260-length element (growth 110 ≥
100 since the push at 150) and the final element. -/
theorem claim_C6 :
    (∀ items : List Relay.GenItem,
      Relay.monoFrom 0 (items.map Relay.truncLen) = true →
      Relay.relayRun items = Relay.relaySpecRun items) ∧
    (Relay.relayRun Relay.p7Stream).1 =
      [List.replicate 150 'a', List.replicate 260 'a',
       List.replicate 260 'a'] := by
  constructor
  · intro items hchain
    exact Relay.relayGo_eq_specGo items [] [] hchain
  · decide

set_option maxRecDepth 8000 in
/-- C6 witness: the general conjunct of `claim_C6` applied to the concrete
P7 stream, its monotone-growth hypothesis discharged by evaluation. -/
theorem claim_C6_witness :
    Relay.monoFrom 0 (Relay.p7Stream.map Relay.truncLen) = true ∧
    Relay.relayRun Relay.p7Stream = Relay.relaySpecRun Relay.p7Stream :=
  ⟨by decide, claim_C6.1 Relay.p7Stream (by decide)⟩

namespace OpenAI

theorem foldl_append_pairs (g : α → List β) : ∀ (l : List α) (init : List β),
    l.foldl (fun acc m => acc ++ g m) init = init ++ l.flatMap g := by
  intro l
  induction l with
  | nil => intro init; simp
  | cons m rest ih =>
    intro init
    simp only [List.foldl_cons, List.flatMap_cons, ih, List.append_assoc]

theorem length_flatMap_two (g : α → List β) (h : ∀ m, (g m).length = 2) :
    ∀ l : List α, (l.flatMap g).length = 2 * l.length := by
  intro l
  induction l with
  | nil => simp
  | cons m rest ih =>
    simp only [List.flatMap_cons, List.length_append, h m, ih, List.length_cons]
    omega

theorem sendMessageAux_nil_error {attempt : List DialogMessage → Except Unit (List Chunk)}
    {L : Nat} {e : Unit} (hA : attempt [] = .error e) :
    sendMessageAux attempt L [] = ⟨[], true, 1, 0⟩ := by
  simp [sendMessageAux, hA]

theorem sendMessageAux_nil_ok {attempt : List DialogMessage → Except Unit (List Chunk)}
    {L : Nat} {chunks : List Chunk} (hA : attempt [] = .ok chunks) :
    sendMessageAux attempt L [] = attemptSuccess L 0 chunks := by
  simp [sendMessageAux, hA]

theorem sendMessageAux_cons_error {attempt : List DialogMessage → Except Unit (List Chunk)}
    {L : Nat} {d : DialogMessage} {rest : List DialogMessage} {e : Unit}
    (hA : attempt (d :: rest) = .error e) :
    sendMessageAux attempt L (d :: rest) =
      ⟨(sendMessageAux attempt L rest).yielded,
       (sendMessageAux attempt L rest).raised,
       (sendMessageAux attempt L rest).attempts + 1,
       (sendMessageAux attempt L rest).dropped + 1⟩ := by
  simp [sendMessageAux, hA]

theorem sendMessageAux_cons_ok {attempt : List DialogMessage → Except Unit (List Chunk)}
    {L : Nat} {d : DialogMessage} {rest : List DialogMessage} {chunks : List Chunk}
    (hA : attempt (d :: rest) = .ok chunks) :
    sendMessageAux attempt L (d :: rest) = attemptSuccess L (rest.length + 1) chunks := by
  simp [sendMessageAux, hA]

theorem attemptSuccess_nil (L n : Nat) :
    attemptSuccess L n [] = ⟨[], true, 1, 0⟩ := by
  simp [attemptSuccess, runChunks]

theorem attemptSuccess_cons (L n : Nat) (c : Chunk) (cs : List Chunk) :
    attemptSuccess L n (c :: cs) =
      ⟨(runChunks (L - n) "" none none (c :: cs)).1 ++
        [⟨(runChunks (L - n) "" none none (c :: cs)).2.1.trim,
          (runChunks (L - n) "" none none (c :: cs)).2.2.1,
          (runChunks (L - n) "" none none (c :: cs)).2.2.2,
          L - n, true⟩],
       false, 1, 0⟩ :=
  rfl

/-- Every response yielded inside the chunk loop is non-final, carries no
token counts, and reports the attempt's removed-message count. -/
theorem runChunks_yields (nRem : Nat) : ∀ (chunks : List Chunk) (msg : String)
    (nIn nOut : Option Nat),
    ∀ r ∈ (runChunks nRem msg nIn nOut chunks).1,
      r.is_finished = false ∧ r.n_input_tokens = none ∧
      r.n_output_tokens = none ∧ r.n_messages_removed = nRem := by
  intro chunks
  induction chunks with
  | nil => intro msg nIn nOut r hr; simp [runChunks] at hr
  | cons c rest ih =>
    intro msg nIn nOut r hr
    simp only [runChunks] at hr
    rcases List.mem_cons.mp hr with rfl | hmem
    · exact ⟨rfl, rfl, rfl, rfl⟩
    · exact ih _ _ _ r hmem

/-- A raising run of `_send_message` yields nothing: failed attempts raise
before streaming, and the empty-stream success raises at its final yield
after having yielded nothing. -/
theorem sendMessageAux_raised (attempt : List DialogMessage → Except Unit (List Chunk))
    (L : Nat) : ∀ dm : List DialogMessage,
    (sendMessageAux attempt L dm).raised = true →
    (sendMessageAux attempt L dm).yielded = [] := by
  intro dm
  induction dm with
  | nil =>
    intro h
    cases hA : attempt [] with
    | error e => rw [sendMessageAux_nil_error hA]
    | ok chunks =>
      rw [sendMessageAux_nil_ok hA] at h ⊢
      cases chunks with
      | nil => rw [attemptSuccess_nil]
      | cons c cs => rw [attemptSuccess_cons] at h; simp at h
  | cons d rest ih =>
    intro h
    cases hA : attempt (d :: rest) with
    | error e =>
      rw [sendMessageAux_cons_error hA] at h ⊢
      exact ih h
    | ok chunks =>
      rw [sendMessageAux_cons_ok hA] at h ⊢
      cases chunks with
      | nil => rw [attemptSuccess_nil]
      | cons c cs => rw [attemptSuccess_cons] at h; simp at h

/-- Shape of a non-raising run of `_send_message`: the yields are a block of
non-final token-less responses closed by exactly one final response whose
removed-message count is the drop count (offset by how far the initial
history was below `dialog_messages_len_before`). -/
theorem sendMessageAux_success (attempt : List DialogMessage → Except Unit (List Chunk))
    (L : Nat) : ∀ dm : List DialogMessage,
    dm.length ≤ L →
    (sendMessageAux attempt L dm).raised = false →
    ∃ mids fin,
      (sendMessageAux attempt L dm).yielded = mids ++ [fin] ∧
      fin.is_finished = true ∧
      fin.n_messages_removed = L - dm.length + (sendMessageAux attempt L dm).dropped ∧
      ∀ r ∈ mids, r.is_finished = false ∧ r.n_input_tokens = none ∧
        r.n_output_tokens = none := by
  intro dm
  induction dm with
  | nil =>
    intro hL h
    cases hA : attempt [] with
    | error e => rw [sendMessageAux_nil_error hA] at h; simp at h
    | ok chunks =>
      rw [sendMessageAux_nil_ok hA] at h ⊢
      cases chunks with
      | nil => rw [attemptSuccess_nil] at h; simp at h
      | cons c cs =>
        rw [attemptSuccess_cons] at h ⊢
        refine ⟨(runChunks (L - 0) "" none none (c :: cs)).1, _, rfl, rfl, by simp, ?_⟩
        intro r hr
        have := runChunks_yields (L - 0) (c :: cs) "" none none r hr
        exact ⟨this.1, this.2.1, this.2.2.1⟩
  | cons d rest ih =>
    intro hL h
    simp only [List.length_cons] at hL
    cases hA : attempt (d :: rest) with
    | error e =>
      rw [sendMessageAux_cons_error hA] at h ⊢
      obtain ⟨mids, fin, hy, hf, hn, hm⟩ :=
        ih (le_trans (Nat.le_succ _) hL) h
      refine ⟨mids, fin, hy, hf, ?_, hm⟩
      rw [hn]
      simp only [List.length_cons]
      omega
    | ok chunks =>
      rw [sendMessageAux_cons_ok hA] at h ⊢
      cases chunks with
      | nil => rw [attemptSuccess_nil] at h; simp at h
      | cons c cs =>
        rw [attemptSuccess_cons] at h ⊢
        refine ⟨(runChunks (L - (rest.length + 1)) "" none none (c :: cs)).1, _,
          rfl, rfl, ?_, ?_⟩
        · simp only [List.length_cons, Nat.add_zero]
        · intro r hr
          have := runChunks_yields (L - (rest.length + 1)) (c :: cs) "" none none r hr
          exact ⟨this.1, this.2.1, this.2.2.1⟩

/-- When every attempt raises the bad-request error, the loop drops one
message per failure, makes one attempt per history suffix (the last with the
empty history), yields nothing and re-raises. -/
theorem sendMessageAux_allFail (attempt : List DialogMessage → Except Unit (List Chunk))
    (hfail : ∀ h, attempt h = .error ()) (L : Nat) :
    ∀ dm : List DialogMessage,
    sendMessageAux attempt L dm = ⟨[], true, dm.length + 1, dm.length⟩ := by
  intro dm
  induction dm with
  | nil => rw [sendMessageAux_nil_error (hfail [])]; rfl
  | cons d rest ih =>
    rw [sendMessageAux_cons_error (hfail (d :: rest)), ih]
    rfl

/-- When the first `k` attempts fail and the `(k+1)`-st succeeds with a
non-empty chunk stream, the run completes without raising after `k + 1`
attempts and `k` drops. -/
theorem sendMessageAux_firstSuccess
    (attempt : List DialogMessage → Except Unit (List Chunk)) (L : Nat) :
    ∀ (k : Nat) (dm : List DialogMessage) (chunks : List Chunk),
    k ≤ dm.length →
    (∀ j, j < k → attempt (dm.drop j) = .error ()) →
    attempt (dm.drop k) = .ok chunks →
    chunks ≠ [] →
    (sendMessageAux attempt L dm).raised = false ∧
    (sendMessageAux attempt L dm).attempts = k + 1 ∧
    (sendMessageAux attempt L dm).dropped = k := by
  intro k
  induction k with
  | zero =>
    intro dm chunks _ _ hok hne
    rw [List.drop_zero] at hok
    cases dm with
    | nil =>
      rw [sendMessageAux_nil_ok hok]
      cases chunks with
      | nil => exact absurd rfl hne
      | cons c cs => rw [attemptSuccess_cons]; exact ⟨rfl, rfl, rfl⟩
    | cons d rest =>
      rw [sendMessageAux_cons_ok hok]
      cases chunks with
      | nil => exact absurd rfl hne
      | cons c cs => rw [attemptSuccess_cons]; exact ⟨rfl, rfl, rfl⟩
  | succ k ih =>
    intro dm chunks hk hfail hok hne
    cases dm with
    | nil => simp at hk
    | cons d rest =>
      have h0 : attempt (d :: rest) = .error () := by
        have := hfail 0 (Nat.succ_pos k)
        simpa using this
      rw [sendMessageAux_cons_error h0]
      have hk' : k ≤ rest.length := by
        simp only [List.length_cons] at hk
        omega
      have hrec := ih rest chunks hk'
        (fun j hj => by
          have := hfail (j + 1) (Nat.succ_lt_succ hj)
          simpa using this)
        (by simpa using hok) hne
      exact ⟨hrec.1, by simp [hrec.2.1], by simp [hrec.2.2]⟩

end OpenAI

/-- C8: `_compose_completion_messages` returns exactly one system entry
built from the chat mode's configured prompt, then one user/assistant entry
pair per history message in order (the user entry carrying one text part
followed by one independent image part per attached image), then one final
user entry for the new message; the total length is
`2 * len(dialog_messages) + 2`. -/
theorem composeFoldl_eq_flatMap (dms : List OpenAI.DialogMessage) :
    ∀ init : List OpenAI.CompletionEntry,
    dms.foldl
      (fun acc m =>
        acc ++ [⟨"user", .parts (OpenAI.userEntryContent m.user)⟩,
                ⟨"assistant", .str m.bot.text⟩])
      init =
    init ++ dms.flatMap
      (fun m =>
        [⟨"user", .parts (OpenAI.userEntryContent m.user)⟩,
         ⟨"assistant", .str m.bot.text⟩]) := by
  induction dms with
  | nil => intro init; simp
  | cons m rest ih =>
    intro init
    simp only [List.foldl_cons, List.flatMap_cons, ih, List.append_assoc]

/-- C8: `_compose_completion_messages` returns exactly one system entry
built from the chat mode's configured prompt, then one user/assistant entry
pair per history message in order (the user entry carrying one text part
followed by one independent image part per attached image), then one final
user entry for the new message; the total length is
`2 * len(dialog_messages) + 2`. -/
theorem claim_C8 (systemMessage newText : String)
    (newImages : List OpenAI.DialogMessageImage)
    (dms : List OpenAI.DialogMessage) :
    OpenAI.composeCompletionMessages systemMessage newText newImages dms =
      ⟨"system", .str systemMessage⟩ ::
        (dms.flatMap (fun m =>
          [⟨"user", .parts (.text m.user.text ::
              m.user.images.map OpenAI.composeUserMessageImage)⟩,
           ⟨"assistant", .str m.bot.text⟩]) ++
         [⟨"user", .parts (.text newText ::
             newImages.map OpenAI.composeUserMessageImage)⟩]) ∧
    (OpenAI.composeCompletionMessages systemMessage newText newImages dms).length
      = 2 * dms.length + 2 := by
  have hshape :
      OpenAI.composeCompletionMessages systemMessage newText newImages dms =
        ⟨"system", .str systemMessage⟩ ::
          (dms.flatMap (fun m =>
            [⟨"user", .parts (.text m.user.text ::
                m.user.images.map OpenAI.composeUserMessageImage)⟩,
             ⟨"assistant", .str m.bot.text⟩]) ++
           [⟨"user", .parts (.text newText ::
               newImages.map OpenAI.composeUserMessageImage)⟩]) := by
    simp only [OpenAI.composeCompletionMessages]
    rw [composeFoldl_eq_flatMap]
    simp [OpenAI.userEntryContent]
  refine ⟨hshape, ?_⟩
  rw [hshape]
  rw [List.length_cons, List.length_append,
    OpenAI.length_flatMap_two
      (fun m : OpenAI.DialogMessage =>
        [(⟨"user", .parts (.text m.user.text ::
            m.user.images.map OpenAI.composeUserMessageImage)⟩ :
            OpenAI.CompletionEntry),
         ⟨"assistant", .str m.bot.text⟩])
      (fun _ => rfl) dms,
    List.length_singleton]

/-- C3: in the `_send_message` retry loop over a history of length N, (a)
if the provider reports the overflow error on every attempt, exactly N+1
attempts are made (the last with empty history), N messages are dropped and
the error is re-raised fatally with nothing yielded; (b) if the first
success comes after k failed attempts (with a non-empty chunk stream), the
run does not raise, makes k+1 attempts, drops k messages, and the final
yield's `n_messages_removed` equals k, the number of oldest history
messages dropped before that first success. -/
theorem claim_C3 :
    (∀ (attempt : List OpenAI.DialogMessage → Except Unit (List OpenAI.Chunk))
       (dm : List OpenAI.DialogMessage),
       (∀ h, attempt h = .error ()) →
       OpenAI.sendMessageRun attempt dm =
         ⟨[], true, dm.length + 1, dm.length⟩) ∧
    (∀ (attempt : List OpenAI.DialogMessage → Except Unit (List OpenAI.Chunk))
       (dm : List OpenAI.DialogMessage) (k : Nat) (chunks : List OpenAI.Chunk),
       k ≤ dm.length →
       (∀ j, j < k → attempt (dm.drop j) = .error ()) →
       attempt (dm.drop k) = .ok chunks →
       chunks ≠ [] →
       (OpenAI.sendMessageRun attempt dm).raised = false ∧
       (OpenAI.sendMessageRun attempt dm).attempts = k + 1 ∧
       (OpenAI.sendMessageRun attempt dm).dropped = k ∧
       ∃ fin, (OpenAI.sendMessageRun attempt dm).yielded.getLast? = some fin ∧
         fin.is_finished = true ∧ fin.n_messages_removed = k) := by
  constructor
  · intro attempt dm hfail
    exact OpenAI.sendMessageAux_allFail attempt hfail dm.length dm
  · intro attempt dm k chunks hk hfail hok hne
    have hfs := OpenAI.sendMessageAux_firstSuccess attempt dm.length k dm chunks
      hk hfail hok hne
    refine ⟨hfs.1, hfs.2.1, hfs.2.2, ?_⟩
    obtain ⟨mids, fin, hy, hf, hn, _⟩ :=
      OpenAI.sendMessageAux_success attempt dm.length dm (le_refl _) hfs.1
    refine ⟨fin, ?_, hf, ?_⟩
    · rw [show OpenAI.sendMessageRun attempt dm =
          OpenAI.sendMessageAux attempt dm.length dm from rfl, hy]
      simp
    · rw [hn, hfs.2.2, Nat.sub_self, Nat.zero_add]

/-- C3 witness: a provider failing on every attempt over a 2-message
history makes 3 attempts and drops 2 messages; a provider failing once and
then succeeding over a 1-message history drops exactly 1 message. -/
theorem claim_C3_witness :
    OpenAI.sendMessageRun (fun _ => .error ())
      [⟨⟨"a", []⟩, ⟨"b", []⟩⟩, ⟨⟨"c", []⟩, ⟨"d", []⟩⟩] =
      ⟨[], true, 3, 2⟩ ∧
    (OpenAI.sendMessageRun
        (fun h => if h.length = 0 then .ok [⟨some "Hi", some (5, 2)⟩]
                  else .error ())
        [⟨⟨"a", []⟩, ⟨"b", []⟩⟩]).dropped = 1 :=
  ⟨claim_C3.1 _ _ (fun _ => rfl),
   (claim_C3.2 _ [⟨⟨"a", []⟩, ⟨"b", []⟩⟩] 1 [⟨some "Hi", some (5, 2)⟩]
      (by decide)
      (fun j hj => by
        have hj0 : j = 0 := Nat.lt_one_iff.mp hj
        subst hj0
        rfl)
      rfl
      (by decide)).2.2.1⟩

/-- C5: a run of `Assistant.send_message` that completes without raising
yields a sequence whose last element, and only that element, has
`is_finished=True`, every earlier element carrying no token counts; and a
consumer that stops before the end of the sequence (a mid-stream abort)
observes no `is_finished=True` element and no token counts. -/
theorem claim_C5 (shouldStream : Bool)
    (attempt : List OpenAI.DialogMessage → Except Unit (List OpenAI.Chunk))
    (dm : List OpenAI.DialogMessage)
    (h : (OpenAI.sendMessageRun attempt dm).raised = false) :
    (∃ mids fin,
      OpenAI.sendMessagePublic shouldStream (OpenAI.sendMessageRun attempt dm) =
        mids ++ [fin] ∧
      fin.is_finished = true ∧
      ∀ r ∈ mids, r.is_finished = false ∧ r.n_input_tokens = none ∧
        r.n_output_tokens = none) ∧
    (∀ pre,
      pre <+: OpenAI.sendMessagePublic shouldStream (OpenAI.sendMessageRun attempt dm) →
      pre ≠ OpenAI.sendMessagePublic shouldStream (OpenAI.sendMessageRun attempt dm) →
      ∀ r ∈ pre, r.is_finished = false ∧ r.n_input_tokens = none ∧
        r.n_output_tokens = none) := by
  obtain ⟨mids, fin, hy, hf, _, hm⟩ :=
    OpenAI.sendMessageAux_success attempt dm.length dm (le_refl _) h
  have hout : OpenAI.sendMessagePublic shouldStream (OpenAI.sendMessageRun attempt dm) =
      mids.filter (fun r => shouldStream || r.is_finished) ++ [fin] := by
    rw [show OpenAI.sendMessageRun attempt dm =
        OpenAI.sendMessageAux attempt dm.length dm from rfl]
    unfold OpenAI.sendMessagePublic
    rw [hy, List.filter_append]
    congr 1
    simp [hf]
  have hmids : ∀ r ∈ mids.filter (fun r => shouldStream || r.is_finished),
      r.is_finished = false ∧ r.n_input_tokens = none ∧
      r.n_output_tokens = none := by
    intro r hr
    exact hm r (List.mem_of_mem_filter hr)
  constructor
  · exact ⟨mids.filter (fun r => shouldStream || r.is_finished), fin, hout, hf, hmids⟩
  · intro pre hpre hne r hr
    have hlt : pre.length <
        (OpenAI.sendMessagePublic shouldStream (OpenAI.sendMessageRun attempt dm)).length := by
      rcases Nat.lt_or_ge pre.length
        (OpenAI.sendMessagePublic shouldStream (OpenAI.sendMessageRun attempt dm)).length with hl | hg
      · exact hl
      · exact absurd (hpre.eq_of_length (le_antisymm hpre.length_le hg)) hne
    have hlen : pre.length ≤ (mids.filter (fun r => shouldStream || r.is_finished)).length := by
      rw [hout] at hlt
      simp only [List.length_append, List.length_singleton] at hlt
      omega
    have hpre2 : pre <+: mids.filter (fun r => shouldStream || r.is_finished) := by
      rw [hout] at hpre
      exact List.prefix_of_prefix_length_le hpre
        (List.prefix_append (mids.filter (fun r => shouldStream || r.is_finished)) [fin])
        hlen
    exact hmids r (hpre2.subset hr)

/-- C5 witness: a one-chunk success with no history, consumed with
streaming enabled, instantiates the theorem; its no-raise hypothesis is
discharged by evaluation. -/
theorem claim_C5_witness :
    (OpenAI.sendMessageRun (fun _ => .ok [⟨some "Hi", some (5, 2)⟩])
        ([] : List OpenAI.DialogMessage)).raised = false ∧
    ((∃ mids fin,
      OpenAI.sendMessagePublic true
          (OpenAI.sendMessageRun (fun _ => .ok [⟨some "Hi", some (5, 2)⟩]) []) =
        mids ++ [fin] ∧
      fin.is_finished = true ∧
      ∀ r ∈ mids, r.is_finished = false ∧ r.n_input_tokens = none ∧
        r.n_output_tokens = none) ∧
    (∀ pre,
      pre <+: OpenAI.sendMessagePublic true
          (OpenAI.sendMessageRun (fun _ => .ok [⟨some "Hi", some (5, 2)⟩]) []) →
      pre ≠ OpenAI.sendMessagePublic true
          (OpenAI.sendMessageRun (fun _ => .ok [⟨some "Hi", some (5, 2)⟩]) []) →
      ∀ r ∈ pre, r.is_finished = false ∧ r.n_input_tokens = none ∧
        r.n_output_tokens = none)) :=
  ⟨rfl, claim_C5 true (fun _ => .ok [⟨some "Hi", some (5, 2)⟩]) [] rfl⟩

namespace DB

theorem assocGet_assocSet_self (l : List (String × α)) (k : String) (v : α) :
    assocGet (assocSet l k v) k = some v := by
  induction l with
  | nil => simp [assocSet, assocGet]
  | cons p rest ih =>
    obtain ⟨k', v'⟩ := p
    simp only [assocSet]
    by_cases h : k' = k
    · rw [if_pos h]
      simp [assocGet, h]
    · rw [if_neg h]
      simp only [assocGet]
      rw [if_neg h]
      exact ih

theorem assocGet_assocUpdate_self (l : List (String × α)) (k : String) (f : α → α) :
    assocGet (assocUpdate l k f) k = (assocGet l k).map f := by
  induction l with
  | nil => simp [assocUpdate, assocGet]
  | cons p rest ih =>
    by_cases h : p.1 = k
    · simp [assocUpdate, assocGet, h]
    · simp only [assocUpdate, assocGet]
      rw [if_neg h]
      simpa [assocGet, h] using ih

theorem assocGet_append_right_of_none (l : List (String × α)) (k : String)
    (v : α) (h : assocGet l k = none) :
    assocGet (l ++ [(k, v)]) k = some v := by
  induction l with
  | nil => simp [assocGet]
  | cons p rest ih =>
    simp only [assocGet] at h ⊢
    by_cases hp : p.1 = k
    · rw [if_pos hp] at h; exact absurd h (by simp)
    · rw [if_neg hp] at h ⊢
      exact ih h

/-- Embeds `set_n_used_tokens` adds the deltas to the model's counters (creating a
zeroed entry when absent). -/
theorem usedTokensOf_setNUsedTokens (st : UserState) (model : String)
    (nIn nOut : Nat) :
    usedTokensOf (setNUsedTokens st model nIn nOut) model =
      ((usedTokensOf st model).1 + nIn, (usedTokensOf st model).2 + nOut) := by
  unfold usedTokensOf setNUsedTokens
  cases h : assocGet st.n_used_tokens model with
  | none =>
    simp only [h]
    rw [assocGet_append_right_of_none st.n_used_tokens model (nIn, nOut) h]
    simp
  | some u =>
    simp only [h]
    rw [assocGet_assocUpdate_self st.n_used_tokens model]
    rw [h]
    simp

end DB

/-- C4: `switch_context_if_needed` implements the context-switch case
analysis: (a) no reply, or a reply to a non-bot message → `NOT_NEEDED`,
state unchanged; (b) a reply to a bot message that resolves to no stored
(dialog id, turn index) → `CANT_SWITCH`, the user is notified, no state
change (no dialog created); (c) a reply resolving to the last turn of the
already-current dialog → `NOT_NEEDED` (only the last-interaction timestamp
refreshed); (d) every other resolving case → `SWITCHED`: a new dialog is
created whose messages are the target dialog's messages truncated to the
matched index inclusive, it becomes current, and it carries the target
dialog's chat mode (which also becomes the user's current chat mode). -/
theorem claim_C4 (st : DB.UserState) (botId : Nat) (freshId : String) (now : Nat) :
    (∀ uid : Nat, Switch.switchContextIfNeeded st ⟨some uid, none⟩ botId freshId now =
      ⟨.NOT_NEEDED, st, false⟩) ∧
    (∀ (uid s : Nat) (mid : Int), s ≠ botId →
      Switch.switchContextIfNeeded st ⟨some uid, some ⟨some s, mid⟩⟩ botId freshId now =
        ⟨.NOT_NEEDED, st, false⟩) ∧
    (∀ (uid : Nat) (mid : Int), DB.getDialogId st.dialogs mid = (none, none) →
      Switch.switchContextIfNeeded st ⟨some uid, some ⟨some botId, mid⟩⟩ botId freshId now =
        ⟨.CANT_SWITCH, st, true⟩) ∧
    (∀ (uid : Nat) (mid : Int) (d : String) (i : Nat),
      DB.getDialogId st.dialogs mid = (some d, some i) →
      some d = st.current_dialog_id →
      (i : Int) = (DB.getDialogMessages st (some d)).length - 1 →
      Switch.switchContextIfNeeded st ⟨some uid, some ⟨some botId, mid⟩⟩ botId freshId now =
        ⟨.NOT_NEEDED, DB.setLastInteraction st now, false⟩) ∧
    (∀ (uid : Nat) (mid : Int) (d : String) (i : Nat),
      DB.getDialogId st.dialogs mid = (some d, some i) →
      ¬(some d = st.current_dialog_id ∧
        (i : Int) = (DB.getDialogMessages st (some d)).length - 1) →
      (Switch.switchContextIfNeeded st ⟨some uid, some ⟨some botId, mid⟩⟩ botId freshId now).outcome
          = .SWITCHED ∧
      (Switch.switchContextIfNeeded st ⟨some uid, some ⟨some botId, mid⟩⟩ botId freshId now).state.current_dialog_id
          = some freshId ∧
      DB.getDialogMessages
          (Switch.switchContextIfNeeded st ⟨some uid, some ⟨some botId, mid⟩⟩ botId freshId now).state
          (some freshId)
          = (DB.getDialogMessages st (some d)).take (i + 1) ∧
      (Switch.switchContextIfNeeded st ⟨some uid, some ⟨some botId, mid⟩⟩ botId freshId now).state.current_chat_mode
          = DB.getChatMode st d ∧
      (DB.assocGet
          (Switch.switchContextIfNeeded st ⟨some uid, some ⟨some botId, mid⟩⟩ botId freshId now).state.dialogs
          freshId).map DB.Dialog.chat_mode
          = some (DB.getChatMode st d) ∧
      (Switch.switchContextIfNeeded st ⟨some uid, some ⟨some botId, mid⟩⟩ botId freshId now).notified
          = false) := by
  refine ⟨?_, ?_, ?_, ?_, ?_⟩
  · intro uid
    rfl
  · intro uid s mid hs
    simp [Switch.switchContextIfNeeded, hs]
  · intro uid mid hres
    simp [Switch.switchContextIfNeeded, hres]
  · intro uid mid d i hres hcur hlast
    have hmsgs : DB.getDialogMessages (DB.setLastInteraction st now) (some d) =
        DB.getDialogMessages st (some d) := rfl
    simp only [Switch.switchContextIfNeeded, hres]
    rw [if_neg (by simp : ¬ botId ≠ botId), if_pos ⟨hcur, by rw [hmsgs]; exact hlast⟩]
  · intro uid mid d i hres hnot
    have hmsgs : DB.getDialogMessages (DB.setLastInteraction st now) (some d) =
        DB.getDialogMessages st (some d) := rfl
    have hcm : DB.getChatMode (DB.setLastInteraction st now) d = DB.getChatMode st d := rfl
    simp only [Switch.switchContextIfNeeded, hres]
    rw [if_neg (by simp : ¬ botId ≠ botId), if_neg (by rw [hmsgs]; exact hnot)]
    refine ⟨rfl, rfl, ?_, rfl, ?_, rfl⟩
    · simp only [DB.getDialogMessages, DB.setDialogMessages, DB.currentOr,
        DB.startNewDialog, DB.setCurrentChatMode]
      rw [DB.assocGet_assocUpdate_self, DB.assocGet_assocSet_self]
      rfl
    · simp only [DB.getDialogMessages, DB.setDialogMessages, DB.currentOr,
        DB.startNewDialog, DB.setCurrentChatMode]
      rw [DB.assocGet_assocUpdate_self, DB.assocGet_assocSet_self]
      rfl

/-- C4 witness: on a concrete user whose current dialog has two turns,
replying to the last turn's message id yields `NOT_NEEDED`, and replying to
the first turn's message id yields `SWITCHED` with the new current dialog
holding exactly the first turn. -/
theorem claim_C4_witness :
    Switch.switchContextIfNeeded Fixture.stA ⟨some 7, some ⟨some 99, 12⟩⟩ 99 "dlgB" 5 =
      ⟨.NOT_NEEDED, DB.setLastInteraction Fixture.stA 5, false⟩ ∧
    (Switch.switchContextIfNeeded Fixture.stA ⟨some 7, some ⟨some 99, 11⟩⟩ 99 "dlgB" 5).outcome
      = .SWITCHED ∧
    DB.getDialogMessages
      (Switch.switchContextIfNeeded Fixture.stA ⟨some 7, some ⟨some 99, 11⟩⟩ 99 "dlgB" 5).state
      (some "dlgB") = [⟨"hi", ['H'], some 11⟩] :=
  ⟨(claim_C4 Fixture.stA 99 "dlgB" 5).2.2.2.1 7 12 "dlgA" 1
      (by decide) (by decide) (by decide),
   ((claim_C4 Fixture.stA 99 "dlgB" 5).2.2.2.2 7 11 "dlgA" 0
      (by decide) (by decide)).1,
   (((claim_C4 Fixture.stA 99 "dlgB" 5).2.2.2.2 7 11 "dlgA" 0
      (by decide) (by decide)).2.2.1).trans (by decide)⟩

namespace DB

theorem setNUsedTokens_dialogs (st : UserState) (model : String) (nIn nOut : Nat) :
    (setNUsedTokens st model nIn nOut).dialogs = st.dialogs := by
  unfold setNUsedTokens
  cases assocGet st.n_used_tokens model <;> rfl

theorem setNUsedTokens_current_dialog_id (st : UserState) (model : String)
    (nIn nOut : Nat) :
    (setNUsedTokens st model nIn nOut).current_dialog_id = st.current_dialog_id := by
  unfold setNUsedTokens
  cases assocGet st.n_used_tokens model <;> rfl

theorem setNUsedTokens_remaining (st : UserState) (model : String) (nIn nOut : Nat) :
    (setNUsedTokens st model nIn nOut).n_remaining_tokens = st.n_remaining_tokens := by
  unfold setNUsedTokens
  cases assocGet st.n_used_tokens model <;> rfl

theorem getLast_append_singleton (l : List α) (a : α) :
    (l ++ [a]).getLast? = some a :=
  List.getLast?_concat l

theorem setDialogMessages_current_dialog_id (st : UserState)
    (messages : List DialogEntry) (dialogId : Option String) :
    (setDialogMessages st messages dialogId).current_dialog_id =
      st.current_dialog_id := by
  unfold setDialogMessages
  cases currentOr st dialogId <;> rfl

theorem setDialogMessages_dialogs_of_current (st : UserState)
    (messages : List DialogEntry) (d : String)
    (hcur : st.current_dialog_id = some d) :
    (setDialogMessages st messages none).dialogs =
      assocUpdate st.dialogs d (fun dl => { dl with messages := messages }) := by
  simp [setDialogMessages, currentOr, hcur]

end DB

/-- C1: on every exit path of the awaited handler task — normal completion,
an escaping exception, or cooperative cancellation — the dispatch block of
`message_handle` releases the user's semaphore (on leaving the
`async with`) and removes the user's task handle (in the `finally`), so a
subsequent dispatch's busy check for the same user does not spuriously
report Busy. -/
theorem claim_C1 (s : Slot.SlotState) (exit : Slot.TaskExit)
    (_hfree : s.locked = false) :
    (Slot.dispatchBlock s exit).1.locked = false ∧
    (Slot.dispatchBlock s exit).1.hasTask = false ∧
    Slot.busyCheck (Slot.dispatchBlock s exit).1 = false := by
  cases exit <;> exact ⟨rfl, rfl, rfl⟩

/-- C1 witness: the free slot, with the handler task ending in cooperative
cancellation. -/
theorem claim_C1_witness :
    (⟨false, false⟩ : Slot.SlotState).locked = false ∧
    ((Slot.dispatchBlock ⟨false, false⟩ .cancelled).1.locked = false ∧
     (Slot.dispatchBlock ⟨false, false⟩ .cancelled).1.hasTask = false ∧
     Slot.busyCheck (Slot.dispatchBlock ⟨false, false⟩ .cancelled).1 = false) :=
  ⟨rfl, claim_C1 ⟨false, false⟩ .cancelled rfl⟩

/-- C7: when the in-flight handler task is cancelled, `message_handle_fn`'s
`except asyncio.CancelledError` clause commits the token counters
accumulated so far (the pair initialised to `0, 0`, so zero counters when no
final chunk had yet delivered counts) before re-raising; the cancellation
reaches the dispatcher, which replies with the `dialog_cancelled` resource —
a different resource than the `completion_error` reply used for a generic
completion failure — and still releases the slot. -/
theorem claim_C7 (st : DB.UserState) (slot : Slot.SlotState)
    (captured : Int) (msgText : String) (msgId : Option Int) (nIn nOut : Nat)
    (_hfree : slot.locked = false) :
    DB.usedTokensOf
        (Handler.messageHandleFn st captured msgText msgId
          (.cancelledAfter nIn nOut)).1 st.current_model =
      ((DB.usedTokensOf st st.current_model).1 + nIn,
       (DB.usedTokensOf st st.current_model).2 + nOut) ∧
    (Handler.messageHandleFn st captured msgText msgId
        (.cancelledAfter nIn nOut)).1.dialogs = st.dialogs ∧
    (Handler.messageHandleFn st captured msgText msgId
        (.cancelledAfter nIn nOut)).1.n_remaining_tokens = st.n_remaining_tokens ∧
    (Handler.messageHandleFn st captured msgText msgId
        (.cancelledAfter nIn nOut)).2.1 = .cancelled ∧
    (Slot.dispatchBlock slot
        (Handler.messageHandleFn st captured msgText msgId
          (.cancelledAfter nIn nOut)).2.1).2.2 = some "dialog_cancelled" ∧
    (Slot.dispatchBlock slot
        (Handler.messageHandleFn st captured msgText msgId
          (.cancelledAfter nIn nOut)).2.1).1.locked = false ∧
    (Handler.messageHandleFn st captured msgText msgId .failed).2.2 =
      some "completion_error" ∧
    "dialog_cancelled" ≠ "completion_error" := by
  refine ⟨?_, ?_, ?_, rfl, rfl, rfl, rfl, by decide⟩
  · exact DB.usedTokensOf_setNUsedTokens st st.current_model nIn nOut
  · exact DB.setNUsedTokens_dialogs st st.current_model nIn nOut
  · exact DB.setNUsedTokens_remaining st st.current_model nIn nOut

/-- C7 witness: cancellation with no counts received yet commits zero
counters on a concrete user, and the dispatcher's reply is the
`dialog_cancelled` resource. -/
theorem claim_C7_witness :
    DB.usedTokensOf
      (Handler.messageHandleFn Fixture.stA 100 "m" none
        (.cancelledAfter 0 0)).1 Fixture.stA.current_model = (0, 0) ∧
    (Slot.dispatchBlock ⟨false, false⟩
        (Handler.messageHandleFn Fixture.stA 100 "m" none
          (.cancelledAfter 0 0)).2.1).2.2 = some "dialog_cancelled" :=
  ⟨((claim_C7 Fixture.stA ⟨false, false⟩ 100 "m" none 0 0 rfl).1).trans (by decide),
   (claim_C7 Fixture.stA ⟨false, false⟩ 100 "m" none 0 0 rfl).2.2.2.2.1⟩

/-- C9: the bot's answer text is truncated to at most
`MESSAGE_LENGTH_LIMIT = 4096` characters before every push to the
message-edit sink, the `answer` variable after the relay loop is likewise
bounded, and the dialog entry appended by `message_handle_fn` records
exactly that relayed answer — so the persisted bot-response text never
exceeds 4096 characters. -/
theorem claim_C9 (items : List Relay.GenItem) (st : DB.UserState)
    (d : String) (dlg : DB.Dialog) (captured : Int) (msgText : String)
    (msgId : Option Int) (nIn nOut : Nat)
    (hcur : st.current_dialog_id = some d)
    (hdlg : DB.assocGet st.dialogs d = some dlg) :
    (∀ t ∈ (Relay.relayRun items).1, t.length ≤ Relay.MESSAGE_LENGTH_LIMIT) ∧
    (Relay.relayRun items).2.length ≤ Relay.MESSAGE_LENGTH_LIMIT ∧
    (DB.getDialogMessages
        (Handler.messageHandleFn st captured msgText msgId
          (.completed (Relay.relayRun items).2 nIn nOut)).1 none).getLast?
      = some ⟨msgText, (Relay.relayRun items).2, msgId⟩ := by
  obtain ⟨hb1, hb2⟩ := Relay.relayGo_bounded items [] [] (Nat.zero_le _)
  refine ⟨hb1, hb2, ?_⟩
  show (DB.getDialogMessages
      (DB.setNRemainingTokens
        (DB.setNUsedTokens
          (DB.setDialogMessages st
            (DB.getDialogMessages st none ++
              [⟨msgText, (Relay.relayRun items).2, msgId⟩]) none)
          st.current_model nIn nOut)
        (captured - (nIn + nOut))) none).getLast?
    = some ⟨msgText, (Relay.relayRun items).2, msgId⟩
  have hread : ∀ stx : DB.UserState,
      stx.current_dialog_id = some d →
      DB.getDialogMessages (DB.setNRemainingTokens
        (DB.setNUsedTokens stx st.current_model nIn nOut)
        (captured - (nIn + nOut))) none =
      ((DB.assocGet stx.dialogs d).map DB.Dialog.messages).getD [] := by
    intro stx hx
    simp [DB.getDialogMessages, DB.currentOr, DB.setNRemainingTokens,
      DB.setNUsedTokens_current_dialog_id,
      DB.setNUsedTokens_dialogs, hx]
  rw [hread _ (by rw [DB.setDialogMessages_current_dialog_id]; exact hcur)]
  rw [DB.setDialogMessages_dialogs_of_current st _ d hcur]
  rw [DB.assocGet_assocUpdate_self, hdlg]
  show (DB.getDialogMessages st none ++
      [(⟨msgText, (Relay.relayRun items).2, msgId⟩ : DB.DialogEntry)]).getLast?
    = some (⟨msgText, (Relay.relayRun items).2, msgId⟩ : DB.DialogEntry)
  exact DB.getLast_append_singleton _ _

/-- C9 witness: a one-item stream on a concrete user; the appended dialog
entry records the relayed answer. -/
theorem claim_C9_witness :
    Fixture.stA.current_dialog_id = some "dlgA" ∧
    (DB.getDialogMessages
        (Handler.messageHandleFn Fixture.stA 100 "m" (some 13)
          (.completed (Relay.relayRun [⟨true, ['H', 'i']⟩]).2 5 2)).1 none).getLast?
      = some ⟨"m", (Relay.relayRun [⟨true, ['H', 'i']⟩]).2, some 13⟩ :=
  ⟨rfl,
   (claim_C9 [⟨true, ['H', 'i']⟩] Fixture.stA "dlgA" Fixture.dlgA 100 "m"
      (some 13) 5 2 rfl (by decide)).2.2⟩

/-- C10: a text message is admitted for generation only when the user's
remaining-token counter is strictly positive at entry (otherwise the
`tokens_limit_reached` reply is sent); after a successful completion the
counter is set to the captured value minus the full input-plus-output usage
with no lower bound (so it can become negative); and any user state whose
stored counter is non-positive rejects every subsequent text message until
the counter is raised. -/
theorem claim_C10 (st : DB.UserState) (msgText : String) (msgId : Option Int)
    (answer : List Char) (nIn nOut : Nat) (st2 : DB.UserState) (r : Int) :
    ((Handler.admitTextMessage st).1 = true ↔ 0 < (DB.getNRemainingTokens st).1) ∧
    ((Handler.admitTextMessage st).1 = false →
      (Handler.admitTextMessage st).2.2.2 = some "tokens_limit_reached") ∧
    ((Handler.admitTextMessage st).1 = true →
      (Handler.processTextMessage st msgText msgId answer nIn nOut).2.n_remaining_tokens
        = some ((DB.getNRemainingTokens st).1 - (nIn + nOut))) ∧
    (st2.n_remaining_tokens = some r → r ≤ 0 →
      (Handler.admitTextMessage st2).1 = false) := by
  refine ⟨?_, ?_, ?_, ?_⟩
  · unfold Handler.admitTextMessage
    by_cases hle : (DB.getNRemainingTokens st).1 ≤ 0
    · rw [if_pos hle]
      simp
      omega
    · rw [if_neg hle]
      simp
      omega
  · intro hfalse
    unfold Handler.admitTextMessage at hfalse ⊢
    by_cases hle : (DB.getNRemainingTokens st).1 ≤ 0
    · rw [if_pos hle]
    · rw [if_neg hle] at hfalse
      simp at hfalse
  · intro htrue
    unfold Handler.processTextMessage
    rw [if_pos htrue]
    have hcap : (Handler.admitTextMessage st).2.1 = (DB.getNRemainingTokens st).1 := by
      unfold Handler.admitTextMessage
      by_cases hle : (DB.getNRemainingTokens st).1 ≤ 0
      · rw [if_pos hle]
      · rw [if_neg hle]
    rw [show (Handler.messageHandleFn (Handler.admitTextMessage st).2.2.1
        (Handler.admitTextMessage st).2.1 msgText msgId
        (.completed answer nIn nOut)).1.n_remaining_tokens
      = some ((Handler.admitTextMessage st).2.1 - (nIn + nOut)) from rfl]
    rw [hcap]
  · intro hstored hle
    unfold Handler.admitTextMessage
    have : DB.getNRemainingTokens st2 = (r, st2) := by
      unfold DB.getNRemainingTokens
      rw [hstored]
    rw [this, if_pos hle]

/-- C10 witness: a user with 100 remaining tokens is admitted; a completion
using 60 + 50 tokens drives the counter to −10; the next text message is
rejected. -/
theorem claim_C10_witness :
    (Handler.admitTextMessage Fixture.stA).1 = true ∧
    (Handler.processTextMessage Fixture.stA "m" none ['H'] 60 50).2.n_remaining_tokens
      = some (-10) ∧
    (Handler.admitTextMessage
        (Handler.processTextMessage Fixture.stA "m" none ['H'] 60 50).2).1 = false :=
  ⟨by decide,
   ((claim_C10 Fixture.stA "m" none ['H'] 60 50 Fixture.stA 0).2.2.1
      (by decide)).trans (by decide),
   (claim_C10 Fixture.stA "m" none ['H'] 60 50
      (Handler.processTextMessage Fixture.stA "m" none ['H'] 60 50).2 (-10)).2.2.2
     (((claim_C10 Fixture.stA "m" none ['H'] 60 50 Fixture.stA 0).2.2.1
        (by decide)).trans (by decide))
     (by decide)⟩

namespace Sched

theorem inv_step : ∀ (s : Sys) (i : Bool), inv s = true → inv (step s i) = true := by
  intro s i
  obtain ⟨slot, t0, t1⟩ := s
  cases slot <;> cases i <;> cases t0 <;> cases t1 <;> decide

theorem exec_cons (s : Sys) (i : Bool) (rest : List Bool) :
    exec s (i :: rest) = exec (step s i) rest := rfl

theorem inv_exec : ∀ (σ : List Bool) (s : Sys), inv s = true →
    inv (exec s σ) = true := by
  intro σ
  induction σ with
  | nil => intro s h; exact h
  | cons i rest ih =>
    intro s h
    rw [exec_cons]
    exact ih (step s i) (inv_step s i h)

theorem inv_init : inv init = true := by decide

theorem inv_no_both_running : ∀ s : Sys, inv s = true →
    ¬(s.t0 = .running ∧ s.t1 = .running) := by
  intro s
  obtain ⟨slot, t0, t1⟩ := s
  cases slot <;> cases t0 <;> cases t1 <;> decide

theorem busy_overlap_step : ∀ s : Sys, inv s = true →
    s.t0 = .running → s.t1 = .ready → (step s true).t1 = .doneBusy := by
  intro s
  obtain ⟨slot, t0, t1⟩ := s
  cases slot <;> cases t0 <;> cases t1 <;> decide

theorem t1_doneBusy_step : ∀ (s : Sys) (i : Bool), s.t1 = .doneBusy →
    (step s i).t1 = .doneBusy := by
  intro s i
  obtain ⟨slot, t0, t1⟩ := s
  cases slot <;> cases i <;> cases t0 <;> cases t1 <;> decide

theorem t1_doneBusy_exec : ∀ (σ : List Bool) (s : Sys), s.t1 = .doneBusy →
    (exec s σ).t1 = .doneBusy := by
  intro σ
  induction σ with
  | nil => intro s h; exact h
  | cons i rest ih =>
    intro s h
    rw [exec_cons]
    exact ih (step s i) (t1_doneBusy_step s i h)

theorem t0_run_or_ran_step : ∀ (s : Sys) (i : Bool),
    (s.t0 = .running ∨ s.t0 = .doneRan) →
    ((step s i).t0 = .running ∨ (step s i).t0 = .doneRan) := by
  intro s i
  obtain ⟨slot, t0, t1⟩ := s
  cases slot <;> cases i <;> cases t0 <;> cases t1 <;> decide

theorem t0_run_or_ran_exec : ∀ (σ : List Bool) (s : Sys),
    (s.t0 = .running ∨ s.t0 = .doneRan) →
    ((exec s σ).t0 = .running ∨ (exec s σ).t0 = .doneRan) := by
  intro σ
  induction σ with
  | nil => intro s h; exact h
  | cons i rest ih =>
    intro s h
    rw [exec_cons]
    exact ih (step s i) (t0_run_or_ran_step s i h)

theorem exec2_cons (s : Sys2) (l : Bool × Bool) (rest : List (Bool × Bool)) :
    exec2 s (l :: rest) = exec2 (step2 s l) rest := rfl

theorem exec2_projA : ∀ (σ : List (Bool × Bool)) (s : Sys2),
    (exec2 s σ).a = exec s.a (projA σ) := by
  intro σ
  induction σ with
  | nil => intro s; rfl
  | cons l rest ih =>
    intro s
    obtain ⟨u, j⟩ := l
    rw [exec2_cons]
    cases u
    · have hp : projA ((false, j) :: rest) = j :: projA rest := by
        simp [projA]
      rw [hp, ih]
      have ha : (step2 s (false, j)).a = step s.a j := rfl
      rw [ha, exec_cons]
    · have hp : projA ((true, j) :: rest) = projA rest := by
        simp [projA]
      rw [hp, ih]
      rfl

end Sched

/-- C2: in the cooperative-scheduling model of two concurrent dispatches for
the same user — where the stretch from the `semaphore.locked()` busy check
through `async with` acquisition and `create_task` runs without a suspension
point and is therefore one atomic step — (i) no interleaving ever has both
handlers running; (ii) a dispatch whose entry runs while the other user's
task is in flight always observes Busy, and then never runs its handler
while the first proceeds to completion (exactly one execution and one Busy
rejection); (iii) dispatches of different users are fully parallel: the
other user's steps never affect a user's own dispatch execution. -/
theorem claim_C2 :
    (∀ σ : List Bool,
      ¬((Sched.exec Sched.init σ).t0 = .running ∧
        (Sched.exec Sched.init σ).t1 = .running)) ∧
    (∀ σ : List Bool,
      (Sched.exec Sched.init σ).t0 = .running →
      (Sched.exec Sched.init σ).t1 = .ready →
      (Sched.step (Sched.exec Sched.init σ) true).t1 = .doneBusy ∧
      (∀ σ2 : List Bool,
        (Sched.exec (Sched.step (Sched.exec Sched.init σ) true) σ2).t1 =
          .doneBusy ∧
        ((Sched.exec (Sched.step (Sched.exec Sched.init σ) true) σ2).t0 =
            .running ∨
         (Sched.exec (Sched.step (Sched.exec Sched.init σ) true) σ2).t0 =
            .doneRan))) ∧
    (∀ (σ : List (Bool × Bool)) (s : Sched.Sys2),
      (Sched.exec2 s σ).a = Sched.exec s.a (Sched.projA σ)) := by
  refine ⟨?_, ?_, ?_⟩
  · intro σ
    exact Sched.inv_no_both_running _ (Sched.inv_exec σ Sched.init Sched.inv_init)
  · intro σ h0 h1
    have hinv := Sched.inv_exec σ Sched.init Sched.inv_init
    have hbusy := Sched.busy_overlap_step _ hinv h0 h1
    refine ⟨hbusy, ?_⟩
    intro σ2
    have ht0 : (Sched.step (Sched.exec Sched.init σ) true).t0 = .running := by
      rw [show (Sched.step (Sched.exec Sched.init σ) true).t0 =
        (Sched.exec Sched.init σ).t0 from rfl]
      exact h0
    exact ⟨Sched.t1_doneBusy_exec σ2 _ hbusy,
           Sched.t0_run_or_ran_exec σ2 _ (Or.inl ht0)⟩
  · intro σ s
    exact Sched.exec2_projA σ s

/-- C2 witness: after the schedule `[first-task-step]` the first dispatch is
running and the second is ready; stepping the second observes Busy, and in
the continued schedule the second stays Busy while the first completes. -/
theorem claim_C2_witness :
    (Sched.exec Sched.init [false]).t0 = .running ∧
    (Sched.exec Sched.init [false]).t1 = .ready ∧
    (Sched.step (Sched.exec Sched.init [false]) true).t1 = .doneBusy ∧
    ((Sched.exec (Sched.step (Sched.exec Sched.init [false]) true) [false]).t0 =
        .running ∨
     (Sched.exec (Sched.step (Sched.exec Sched.init [false]) true) [false]).t0 =
        .doneRan) :=
  ⟨by decide, by decide,
   (claim_C2.2.1 [false] (by decide) (by decide)).1,
   ((claim_C2.2.1 [false] (by decide) (by decide)).2 [false]).2⟩
